import Mathlib

/-!
Shallow embedding of the `ScreenShake2D` camera-shake controller from
`arcade/camera/grips/screen_shake_2d.py`, together with proofs of its
specification properties.

Modelling conventions:
* Python floats are modelled by real numbers (exact arithmetic).
* The controller's only interaction with the external `CameraData` record is
  the 3-component `position` tuple, so that tuple is inlined into the state
  as a `Vec3` field `pos`.
* Python float division raises `ZeroDivisionError` when the denominator is
  zero; every operation of the source that contains a reachable division is
  therefore modelled with an explicit zero test.  `calc_max_amp`,
  `calc_amplitude`, `current_amplitude`, `set_duration` and the `falloff`
  getter return `Option` (`none` = the call raises); `update` returns the
  post-call state paired with a `Bool` that is `false` when the call raises
  (the source mutates `_length_shaking` before the raising expression, so
  the post-raise state has the advanced time and nothing else changed).
* The random direction drawn by `uniform(0, 2*pi)` is modelled by an oracle
  argument `omega`, consumed only when `direction_deg` is `none`.
* The source contains two textual definitions of `stop`; Python keeps the
  second one, which is `stop` below.  The dead first definition is embedded
  as `stop_shadowed`.
-/

noncomputable section

/-- Three-component camera position vector: the only part of `CameraData`
that the controller reads or writes. -/
@[ext]
structure Vec3 where
  x : ℝ
  y : ℝ
  z : ℝ

instance : Add Vec3 := ⟨fun a b => ⟨a.x + b.x, a.y + b.y, a.z + b.z⟩⟩

instance : Sub Vec3 := ⟨fun a b => ⟨a.x - b.x, a.y - b.y, a.z - b.z⟩⟩

namespace ScreenShake2D

/-- The full mutable state of a `ScreenShake2D` instance: the camera position
it aliases plus every attribute set in `__init__`. -/
structure ShakeState where
  pos : Vec3
  max_amplitude : ℝ
  falloff_duration : ℝ
  shake_frequency : ℝ
  acceleration_duration : ℝ
  shaking : Bool
  length_shaking : ℝ
  current_dir : ℝ
  last_vector : Vec3
  last_update_time : ℝ
  direction_deg : Option ℝ

/-- The constructor `ScreenShake2D.__init__`. -/
def mk_shake (camera_pos : Vec3) (max_amplitude falloff_time acceleration_duration
    shake_frequency : ℝ) (direction_deg : Option ℝ) : ShakeState :=
  { pos := camera_pos
    max_amplitude := max_amplitude
    falloff_duration := falloff_time
    shake_frequency := shake_frequency
    acceleration_duration := acceleration_duration
    shaking := false
    length_shaking := 0
    current_dir := 0
    last_vector := ⟨0, 0, 0⟩
    last_update_time := 0
    direction_deg := direction_deg }

/-- The `duration` property getter. -/
def duration (s : ShakeState) : ℝ :=
  if s.falloff_duration < 0 then s.acceleration_duration
  else s.acceleration_duration + s.falloff_duration

/-- The `duration` property setter.  The third branch computes
`ratio = _duration / self.duration`, which raises when the current total
duration is zero, hence the `none` case. -/
def set_duration (s : ShakeState) (d : ℝ) : Option ShakeState :=
  if d ≤ 0 then some { s with falloff_duration := -1 }
  else if s.falloff_duration < 0 then some { s with acceleration_duration := d }
  else if duration s = 0 then none
  else some { s with
    acceleration_duration := d / duration s * s.acceleration_duration
    falloff_duration := d / duration s * s.falloff_duration }

/-- The rising half of the envelope, `_acceleration_amp`. -/
def acceleration_amp (t : ℝ) : ℝ :=
  1.0001 - 1.0001 * Real.exp (Real.log (0.0001 / 1.0001) * t)

/-- The falloff half of the envelope, `_falloff_amp` (flipped smootherstep). -/
def falloff_amp (t : ℝ) : ℝ :=
  1 - t ^ 3 * (t * (t * 6 - 15) + 10)

/-- The piecewise envelope `_calc_max_amp`.  The first branch divides by
`_acceleration_duration` and the third by `falloff_duration`; each division
raises exactly when its denominator is zero. -/
def calc_max_amp (s : ShakeState) : Option ℝ :=
  if s.length_shaking ≤ s.acceleration_duration then
    if s.acceleration_duration = 0 then none
    else some (acceleration_amp (s.length_shaking / s.acceleration_duration))
  else if s.falloff_duration < 0 then some s.max_amplitude
  else if s.length_shaking ≤ duration s then
    if s.falloff_duration = 0 then none
    else some (falloff_amp ((s.length_shaking - s.acceleration_duration) / s.falloff_duration))
  else some 0

/-- The signed amplitude `_calc_amplitude`: sinusoid times envelope. -/
def calc_amplitude (s : ShakeState) : Option ℝ :=
  match calc_max_amp s with
  | none => none
  | some m => some (Real.sin (s.shake_frequency * 2 * Real.pi * s.length_shaking) * m)

/-- The `current_amplitude` property getter. -/
def current_amplitude (s : ShakeState) : Option ℝ :=
  match calc_amplitude s with
  | none => none
  | some a => some (a * s.max_amplitude)

/-- The `acceleration_duration` property setter (clamps negatives to zero). -/
def set_acceleration_duration (s : ShakeState) (d : ℝ) : ShakeState :=
  if d < 0 then { s with acceleration_duration := 0 }
  else { s with acceleration_duration := d }

/-- The `acceleration` property getter (zero is special-cased). -/
def acceleration (s : ShakeState) : ℝ :=
  if s.acceleration_duration ≤ 0 then 0 else 1 / s.acceleration_duration

/-- The `acceleration` property setter. -/
def set_acceleration (s : ShakeState) (a : ℝ) : ShakeState :=
  if a ≤ 0 then { s with acceleration_duration := 0 }
  else { s with acceleration_duration := 1 / a }

/-- The `falloff` property getter.  The source special-cases only negative
`falloff_duration`; at `falloff_duration = 0` the division raises, hence
`none`. -/
def falloff (s : ShakeState) : Option ℝ :=
  if s.falloff_duration < 0 then some (-1)
  else if s.falloff_duration = 0 then none
  else some (15 / 8 * (1 / s.falloff_duration))

/-- The `falloff` property setter. -/
def set_falloff (s : ShakeState) (f : ℝ) : ShakeState :=
  if f ≤ 0 then { s with falloff_duration := -1 }
  else { s with falloff_duration := 15 / 8 * (1 / f) }

/-- The `reset` method: zeroes the transient variables, leaves `shaking`
and the camera position untouched. -/
def reset (s : ShakeState) : ShakeState :=
  { s with current_dir := 0, last_vector := ⟨0, 0, 0⟩, last_update_time := 0,
           length_shaking := 0 }

/-- The `start` method. -/
def start (s : ShakeState) : ShakeState :=
  { reset s with shaking := true }

/-- The first, dead definition of `stop` in the source (it is immediately
shadowed by the second one and never runs; it omits clearing `_shaking`). -/
def stop_shadowed (s : ShakeState) : ShakeState :=
  reset { s with pos := ⟨s.pos.x - s.last_vector.x, s.pos.y - s.last_vector.y,
                         s.pos.z - s.last_vector.z⟩ }

/-- The effective (second) definition of `stop`: undo the last offset,
reset the transient state, clear the shaking flag. -/
def stop (s : ShakeState) : ShakeState :=
  { reset { s with pos := ⟨s.pos.x - s.last_vector.x, s.pos.y - s.last_vector.y,
                           s.pos.z - s.last_vector.z⟩ } with
    shaking := false }

/-- The direction angle chosen inside `update`: the oracle `omega` stands for
`uniform(0, 2*pi)` and is consumed only when no fixed direction is set. -/
def shake_angle (s : ShakeState) (omega : ℝ) : ℝ :=
  match s.direction_deg with
  | none => omega
  | some deg => deg * (Real.pi / 180)

/-- The `update` method.  Returns the post-call state and `true`, or — when
`_calc_amplitude` raises — the post-raise state (elapsed time already
advanced, nothing else changed) and `false`. -/
def update (s : ShakeState) (delta_time omega : ℝ) : ShakeState × Bool :=
  if s.shaking = false then (s, true)
  else
    let s1 : ShakeState := { s with length_shaking := s.length_shaking + delta_time }
    match calc_amplitude s1 with
    | none => (s1, false)
    | some amplitude =>
      let angle_radians : ℝ := shake_angle s1 omega
      let offset_x : ℝ := amplitude * Real.sin angle_radians
      let offset_y : ℝ := amplitude * Real.sin (angle_radians + Real.pi / 2)
      let s2 : ShakeState := { s1 with
        pos := ⟨s1.pos.x - s1.last_vector.x + offset_x,
                s1.pos.y - s1.last_vector.y + offset_y,
                s1.pos.z - s1.last_vector.z⟩
        last_vector := ⟨offset_x, offset_y, 0⟩ }
      if duration s2 ≤ s2.length_shaking then (stop s2, true) else (s2, true)

/-- Fold a list of `(delta_time, oracle)` frames through `update`, keeping
the post-call state also for raising calls. -/
def run_updates (s : ShakeState) (l : List (ℝ × ℝ)) : ShakeState :=
  l.foldl (fun t p => (update t p.1 p.2).1) s

/-- Every public operation of the controller, for reachability statements. -/
inductive Op where
  | start
  | stop
  | reset
  | update (dt omega : ℝ)
  | set_duration (d : ℝ)
  | set_acceleration_duration (d : ℝ)
  | set_acceleration (a : ℝ)
  | set_falloff (f : ℝ)
  | set_max_amplitude (m : ℝ)
  | set_shake_frequency (f : ℝ)
  | set_direction_deg (d : Option ℝ)

/-- One public call.  A raising `set_duration` mutates nothing (the division
happens before any assignment), so its post-raise state is `s` itself; a
raising `update` leaves the advanced-time state produced by `update`. -/
def step (s : ShakeState) : Op → ShakeState
  | Op.start => start s
  | Op.stop => stop s
  | Op.reset => reset s
  | Op.update dt omega => (update s dt omega).1
  | Op.set_duration d => (set_duration s d).getD s
  | Op.set_acceleration_duration d => set_acceleration_duration s d
  | Op.set_acceleration a => set_acceleration s a
  | Op.set_falloff f => set_falloff s f
  | Op.set_max_amplitude m => { s with max_amplitude := m }
  | Op.set_shake_frequency f => { s with shake_frequency := f }
  | Op.set_direction_deg d => { s with direction_deg := d }

/-- Run a sequence of public calls from a state. -/
def run (s : ShakeState) (ops : List Op) : ShakeState :=
  ops.foldl step s

/-- Example state: disabled falloff, `max_amplitude = 2`, elapsed time past
the acceleration phase, frequency chosen so the sinusoid is exactly 1. -/
def disabled_falloff_state : ShakeState :=
  { mk_shake ⟨0, 0, 0⟩ 2 (-1) 1 (1 / 8) none with shaking := true, length_shaking := 2 }

/-- Example state: `acceleration_duration = 0` immediately after `start()`. -/
def zero_accel_state : ShakeState :=
  { mk_shake ⟨0, 0, 0⟩ 1 1 0 15 none with shaking := true }

/-- Example state: `acceleration_duration = 0` and `falloff_duration = 0`,
so the total duration is zero. -/
def zero_duration_state : ShakeState :=
  mk_shake ⟨0, 0, 0⟩ 1 0 0 15 none

/-- Example state: the default configuration of the constructor docstring
(`max_amplitude = 1`, `falloff_time = 1`, `acceleration_duration = 1`). -/
def demo_state : ShakeState :=
  mk_shake ⟨0, 0, 0⟩ 1 1 1 15 none

/-- Example state: falloff disabled. -/
def demo_disabled : ShakeState :=
  mk_shake ⟨0, 0, 0⟩ 1 (-1) 1 15 none

/-- Example state: shaking, falloff disabled, `acceleration_duration = 1`,
`max_amplitude = 0`, so one large `update` step must auto-stop. -/
def auto_stop_state : ShakeState :=
  { mk_shake ⟨0, 0, 0⟩ 0 (-1) 1 0 (some 0) with shaking := true }

/-- Example state: shaking with the fixed direction 90 degrees. -/
def fixed_dir_state : ShakeState :=
  { mk_shake ⟨0, 0, 0⟩ 2 1 1 1 (some 90) with shaking := true }

/-- Example state: mid-shake, with a nonzero `last_vector` live on the
camera position. -/
def midshake_state : ShakeState :=
  { mk_shake ⟨3, 4, 5⟩ 1 1 1 15 none with shaking := true, last_vector := ⟨1, 0, 0⟩ }

end ScreenShake2D

open ScreenShake2D

/-! Component lemmas for the `Vec3` instances. -/

@[simp]
theorem Vec3.add_x (a b : Vec3) : (a + b).x = a.x + b.x := rfl

@[simp]
theorem Vec3.add_y (a b : Vec3) : (a + b).y = a.y + b.y := rfl

@[simp]
theorem Vec3.add_z (a b : Vec3) : (a + b).z = a.z + b.z := rfl

@[simp]
theorem Vec3.sub_x (a b : Vec3) : (a - b).x = a.x - b.x := rfl

@[simp]
theorem Vec3.sub_y (a b : Vec3) : (a - b).y = a.y - b.y := rfl

@[simp]
theorem Vec3.sub_z (a b : Vec3) : (a - b).z = a.z - b.z := rfl

/-! Helper lemmas: the camera position always equals a fixed base plus
`last_vector`, and this invariant is preserved by `update` and harvested by
`stop`. -/

theorem update_pos_base (b : Vec3) (s : ShakeState) (dt w : ℝ)
    (h : s.pos = b + s.last_vector) :
    (update s dt w).1.pos = b + (update s dt w).1.last_vector := by
  have hx : s.pos.x = b.x + s.last_vector.x := by rw [h]; rfl
  have hy : s.pos.y = b.y + s.last_vector.y := by rw [h]; rfl
  have hz : s.pos.z = b.z + s.last_vector.z := by rw [h]; rfl
  unfold update
  split
  · exact h
  · dsimp only
    split
    · exact h
    · split
      · dsimp only [stop, reset]
        ext <;> simp <;> linarith
      · ext <;> simp <;> linarith

theorem stop_pos_base (b : Vec3) (s : ShakeState)
    (h : s.pos = b + s.last_vector) :
    (stop s).pos = b := by
  have hx : s.pos.x = b.x + s.last_vector.x := by rw [h]; rfl
  have hy : s.pos.y = b.y + s.last_vector.y := by rw [h]; rfl
  have hz : s.pos.z = b.z + s.last_vector.z := by rw [h]; rfl
  dsimp only [stop, reset]
  ext <;> simp <;> linarith

theorem run_updates_cons (s : ShakeState) (p : ℝ × ℝ) (l : List (ℝ × ℝ)) :
    run_updates s (p :: l) = run_updates ((update s p.1 p.2).1) l := rfl

theorem run_updates_pos_base (b : Vec3) (l : List (ℝ × ℝ)) (s : ShakeState)
    (h : s.pos = b + s.last_vector) :
    (run_updates s l).pos = b + (run_updates s l).last_vector := by
  induction l generalizing s with
  | nil => exact h
  | cons p t ih =>
    rw [run_updates_cons]
    exact ih _ (update_pos_base b s p.1 p.2 h)

theorem start_pos_base (s : ShakeState) :
    (start s).pos = s.pos + (start s).last_vector := by
  dsimp only [start, reset]
  ext <;> simp

/-- Claim C1 (Reversibility): for every starting camera position and every
sequence of `update` calls made after `start()`, calling `stop()` returns
the camera position exactly to its value immediately before `start()` was
called, because at any instant the controller's net contribution to the
position equals `last_vector`. -/
theorem stop_reverts_camera_position (s : ShakeState) (l : List (ℝ × ℝ)) :
    (run_updates (start s) l).pos
        = s.pos + (run_updates (start s) l).last_vector
    ∧ (stop (run_updates (start s) l)).pos = s.pos := by
  have h := run_updates_pos_base s.pos l (start s) (start_pos_base s)
  exact ⟨h, stop_pos_base s.pos _ h⟩

/-! Helper lemmas about the `duration` getter. -/

theorem duration_of_nonneg (s : ShakeState) (h : 0 ≤ s.falloff_duration) :
    duration s = s.acceleration_duration + s.falloff_duration := by
  unfold duration
  rw [if_neg (not_lt.mpr h)]

theorem duration_of_neg (s : ShakeState) (h : s.falloff_duration < 0) :
    duration s = s.acceleration_duration := by
  unfold duration
  rw [if_pos h]

/-- Claim C8 (Envelope boundary values): for `acceleration_duration > 0` the
envelope is exactly 0 at elapsed time 0 and exactly 1 at elapsed time
`acceleration_duration` (the 1.0001 correction makes it exact in real
arithmetic); with falloff enabled (`falloff_duration > 0`) the envelope is
exactly 0 at elapsed time `duration`. -/
theorem envelope_boundary_values (s : ShakeState) :
    (0 < s.acceleration_duration → s.length_shaking = 0 → calc_max_amp s = some 0)
    ∧ (0 < s.acceleration_duration → s.length_shaking = s.acceleration_duration →
        calc_max_amp s = some 1)
    ∧ (0 < s.falloff_duration → s.length_shaking = duration s →
        calc_max_amp s = some 0) := by
  refine ⟨?_, ?_, ?_⟩
  · intro ha h0
    unfold calc_max_amp
    split_ifs with h1 h2
    · exact absurd h2 (ne_of_gt ha)
    · rw [h0, zero_div]
      unfold acceleration_amp
      norm_num
    all_goals exact absurd (h0 ▸ le_of_lt ha) h1
  · intro ha he
    unfold calc_max_amp
    split_ifs with h1 h2
    · exact absurd h2 (ne_of_gt ha)
    · rw [he, div_self (ne_of_gt ha)]
      unfold acceleration_amp
      rw [mul_one, Real.exp_log (by norm_num)]
      norm_num
    all_goals exact absurd (le_of_eq he) h1
  · intro hf he
    have hdur : duration s = s.acceleration_duration + s.falloff_duration :=
      duration_of_nonneg s (le_of_lt hf)
    rw [hdur] at he
    unfold calc_max_amp
    split_ifs with h1 h2 h3 h4 h5
    · exfalso; rw [he] at h1; linarith
    · exfalso; rw [he] at h1; linarith
    · exact absurd h3 (not_lt.mpr (le_of_lt hf))
    · exact absurd h5 (ne_of_gt hf)
    · rw [he, add_sub_cancel_left, div_self (ne_of_gt hf)]
      unfold falloff_amp
      norm_num
    · exact absurd (he ▸ le_of_eq hdur.symm) h4

/-- Witness for the envelope boundary values, at the default configuration
`acceleration_duration = falloff_duration = 1`: envelope 0 at time 0,
envelope 1 at time 1, envelope 0 at time 2 (the total duration). -/
theorem envelope_boundary_values_witness :
    calc_max_amp demo_state = some 0
    ∧ calc_max_amp { demo_state with length_shaking := 1 } = some 1
    ∧ calc_max_amp { demo_state with length_shaking := 2 } = some 0 := by
  refine ⟨(envelope_boundary_values demo_state).1 (by norm_num [demo_state, mk_shake]) rfl,
          (envelope_boundary_values _).2.1 (by norm_num [demo_state, mk_shake])
            (by norm_num [demo_state, mk_shake]),
          (envelope_boundary_values _).2.2 (by norm_num [demo_state, mk_shake])
            (by norm_num [demo_state, mk_shake, duration])⟩

/-- Claim C2 (code bug, evaluated at the failing input): in the
disabled-falloff phase the envelope function returns `max_amplitude`
(here 2), not 1.0, so `current_amplitude` is the sinusoid times
`max_amplitude` squared (here `1 * 2 * 2 = 4`) instead of the sinusoid
times `max_amplitude` (which would be 2).  The state has
`max_amplitude = 2`, `falloff_duration = -1`, `acceleration_duration = 1`,
`shake_frequency = 1/8` and elapsed time 2, so the sinusoid factor is
`sin(pi/2) = 1`. -/
theorem calc_max_amp_disabled_falloff_returns_max_amplitude :
    calc_max_amp disabled_falloff_state = some 2
    ∧ current_amplitude disabled_falloff_state = some 4 := by
  have hmax : calc_max_amp disabled_falloff_state = some 2 := by
    unfold calc_max_amp disabled_falloff_state mk_shake duration
    norm_num
  have hsin : Real.sin (disabled_falloff_state.shake_frequency * 2 * Real.pi *
      disabled_falloff_state.length_shaking) = 1 := by
    have harg : disabled_falloff_state.shake_frequency * 2 * Real.pi *
        disabled_falloff_state.length_shaking = Real.pi / 2 := by
      unfold disabled_falloff_state mk_shake
      dsimp only
      ring
    rw [harg, Real.sin_pi_div_two]
  refine ⟨hmax, ?_⟩
  unfold current_amplitude calc_amplitude
  rw [hmax]
  dsimp only
  rw [hsin]
  have hamp : disabled_falloff_state.max_amplitude = 2 := rfl
  rw [hamp]
  norm_num

/-- Claim C3 (code bug, evaluated at the failing inputs): division by zero is
reachable.  With `acceleration_duration = 0`, `update` after `start()` with
`delta_time = 0` divides `0 / 0` inside the envelope and raises; with total
duration 0 (`acceleration_duration = falloff_duration = 0`) the `duration`
setter's ratio divides by zero and raises; and the `falloff` getter divides
by a zero `falloff_duration` and raises. -/
theorem division_by_zero_reachable :
    (update zero_accel_state 0 0).2 = false
    ∧ set_duration zero_duration_state 5 = none
    ∧ falloff zero_duration_state = none := by
  refine ⟨?_, ?_, ?_⟩
  · unfold update zero_accel_state mk_shake calc_amplitude calc_max_amp
    norm_num
  · unfold set_duration zero_duration_state mk_shake duration
    norm_num
  · unfold falloff zero_duration_state mk_shake
    norm_num

/-- Claim C5 (Duration rescale): for `d ≤ 0` the setter disables falloff and
leaves `acceleration_duration` unchanged; for `d > 0` with falloff disabled
it sets `acceleration_duration := d` and falloff stays disabled; for `d > 0`
with falloff enabled and positive current total duration it scales both
durations by `d / duration`, so the getter afterwards returns `d` and the
ratio of the two durations is preserved. -/
theorem duration_setter_cases (s : ShakeState) (d : ℝ) :
    (d ≤ 0 → set_duration s d = some { s with falloff_duration := -1 })
    ∧ (0 < d → s.falloff_duration < 0 →
        set_duration s d = some { s with acceleration_duration := d })
    ∧ (0 < d → 0 ≤ s.falloff_duration → 0 < duration s →
        ∃ s2, set_duration s d = some s2
          ∧ duration s2 = d
          ∧ s2.acceleration_duration = d / duration s * s.acceleration_duration
          ∧ s2.falloff_duration = d / duration s * s.falloff_duration
          ∧ s2.acceleration_duration * s.falloff_duration
              = s.acceleration_duration * s2.falloff_duration) := by
  refine ⟨?_, ?_, ?_⟩
  · intro hd
    unfold set_duration
    rw [if_pos hd]
  · intro hd hf
    unfold set_duration
    rw [if_neg (not_le.mpr hd), if_pos hf]
  · intro hd hf hdur
    have hf' : ¬ s.falloff_duration < 0 := not_lt.mpr hf
    have hdur' : duration s ≠ 0 := ne_of_gt hdur
    refine ⟨{ s with
        acceleration_duration := d / duration s * s.acceleration_duration
        falloff_duration := d / duration s * s.falloff_duration },
      ?_, ?_, rfl, rfl, ?_⟩
    · unfold set_duration
      rw [if_neg (not_le.mpr hd), if_neg hf', if_neg hdur']
    · have hr0 : 0 ≤ d / duration s * s.falloff_duration :=
        mul_nonneg (le_of_lt (div_pos hd hdur)) hf
      rw [duration_of_nonneg _ hr0]
      dsimp only
      rw [← mul_add, ← duration_of_nonneg s hf, div_mul_cancel₀ d hdur']
    · dsimp only
      ring

/-- Witness for the duration setter cases at concrete configurations:
disabling (`d = -1`), setting while disabled (`d = 3`), and rescaling the
default configuration from total duration 2 to 4. -/
theorem duration_setter_cases_witness :
    set_duration demo_state (-1) = some { demo_state with falloff_duration := -1 }
    ∧ set_duration demo_disabled 3
        = some { demo_disabled with acceleration_duration := 3 }
    ∧ ∃ s2, set_duration demo_state 4 = some s2
        ∧ duration s2 = 4
        ∧ s2.acceleration_duration
            = 4 / duration demo_state * demo_state.acceleration_duration
        ∧ s2.falloff_duration
            = 4 / duration demo_state * demo_state.falloff_duration
        ∧ s2.acceleration_duration * demo_state.falloff_duration
            = demo_state.acceleration_duration * s2.falloff_duration := by
  refine ⟨(duration_setter_cases demo_state (-1)).1 (by norm_num),
          (duration_setter_cases demo_disabled 3).2.1 (by norm_num)
            (by norm_num [demo_disabled, mk_shake]),
          (duration_setter_cases demo_state 4).2.2 (by norm_num)
            (by norm_num [demo_state, mk_shake])
            (by norm_num [demo_state, mk_shake, duration])⟩

/-- Claim C6 (Auto-stop): whenever an `update(dt)` call made while shaking
returns normally and the advanced elapsed shake-time reaches `duration`,
the call itself stops the shake: afterwards `shaking` is false and the
transient state is reset, with no explicit `stop()` by the driver. -/
theorem update_auto_stop (s : ShakeState) (dt w : ℝ)
    (hshake : s.shaking = true)
    (hret : (update s dt w).2 = true)
    (hdur : duration s ≤ s.length_shaking + dt) :
    (update s dt w).1.shaking = false
    ∧ (update s dt w).1.length_shaking = 0
    ∧ (update s dt w).1.last_vector = ⟨0, 0, 0⟩
    ∧ (update s dt w).1.current_dir = 0
    ∧ (update s dt w).1.last_update_time = 0 := by
  have hcond : ¬ (s.shaking = false) := by rw [hshake]; simp
  unfold update at hret ⊢
  rw [if_neg hcond] at hret ⊢
  dsimp only at hret ⊢
  cases hA : calc_amplitude { s with length_shaking := s.length_shaking + dt } with
  | none =>
    rw [hA] at hret
    exact absurd hret (by simp)
  | some a =>
    rw [hA] at hret
    dsimp only at hret ⊢
    split
    · exact ⟨rfl, rfl, rfl, rfl, rfl⟩
    · rename_i hlt
      exact absurd hdur hlt

/-- Witness for auto-stop: from `auto_stop_state` (shaking, total duration 1)
a single `update` with `dt = 2` returns normally and clears the shaking
flag by itself. -/
theorem update_auto_stop_witness :
    (update auto_stop_state 2 0).1.shaking = false
    ∧ (update auto_stop_state 2 0).1.length_shaking = 0 := by
  have h := update_auto_stop auto_stop_state 2 0 rfl
    (by unfold update auto_stop_state mk_shake calc_amplitude calc_max_amp duration
        norm_num)
    (by norm_num [duration, auto_stop_state, mk_shake])
  exact ⟨h.1, h.2.1⟩

/-! Helper lemmas for fixed-direction determinism. -/

theorem update_direction_deg (s : ShakeState) (dt w : ℝ) :
    (update s dt w).1.direction_deg = s.direction_deg := by
  unfold update
  split
  · rfl
  · dsimp only
    split
    · rfl
    · split
      · rfl
      · rfl

theorem update_oracle_irrel (s : ShakeState) (d : ℝ) (h : s.direction_deg = some d)
    (dt w1 w2 : ℝ) : update s dt w1 = update s dt w2 := by
  unfold update shake_angle
  dsimp only
  rw [h]

theorem run_updates_oracle_irrel (d : ℝ) (l1 l2 : List (ℝ × ℝ)) (s : ShakeState)
    (h : s.direction_deg = some d) (hl : l1.map Prod.fst = l2.map Prod.fst) :
    run_updates s l1 = run_updates s l2 := by
  induction l1 generalizing l2 s with
  | nil =>
    cases l2 with
    | nil => rfl
    | cons q t2 => simp at hl
  | cons p t ih =>
    cases l2 with
    | nil => simp at hl
    | cons q t2 =>
      simp only [List.map_cons, List.cons.injEq] at hl
      rw [run_updates_cons, run_updates_cons]
      have he : update s p.1 p.2 = update s q.1 q.2 := by
        rw [hl.1]
        exact update_oracle_irrel s d h q.1 p.2 q.2
      rw [he]
      exact ih t2 _ ((update_direction_deg s q.1 q.2).trans h) hl.2

/-- Claim C7 (Fixed-direction determinism): when `direction_deg` is set,
runs with equal `dt` sequences coincide whatever the random oracle yields,
the chosen angle is the fixed direction converted to radians, and the
per-frame offset stored in `last_vector` is
`(amplitude * sin(angle), amplitude * sin(angle + pi/2), 0)`. -/
theorem fixed_direction_determinism (s : ShakeState) (d : ℝ)
    (h : s.direction_deg = some d) :
    (∀ l1 l2 : List (ℝ × ℝ), l1.map Prod.fst = l2.map Prod.fst →
        run_updates s l1 = run_updates s l2)
    ∧ (∀ w, shake_angle s w = d * (Real.pi / 180))
    ∧ (∀ dt w a, s.shaking = true →
        calc_amplitude { s with length_shaking := s.length_shaking + dt } = some a →
        s.length_shaking + dt < duration s →
        (update s dt w).1.last_vector
          = ⟨a * Real.sin (d * (Real.pi / 180)),
             a * Real.sin (d * (Real.pi / 180) + Real.pi / 2), 0⟩) := by
  refine ⟨fun l1 l2 hl => run_updates_oracle_irrel d l1 l2 s h hl, ?_, ?_⟩
  · intro w
    unfold shake_angle
    rw [h]
  · intro dt w a hshake hA hlt
    have hcond : ¬ (s.shaking = false) := by rw [hshake]; simp
    unfold update
    rw [if_neg hcond]
    dsimp only
    rw [hA]
    dsimp only
    rw [show shake_angle { s with length_shaking := s.length_shaking + dt } w
          = d * (Real.pi / 180) from by unfold shake_angle; dsimp only; rw [h]]
    split
    · rename_i hge
      exact absurd hge (not_le.mpr hlt)
    · rfl

/-- Witness for fixed-direction determinism at the 90-degree state. -/
theorem fixed_direction_determinism_witness :
    shake_angle fixed_dir_state 5 = 90 * (Real.pi / 180)
    ∧ run_updates fixed_dir_state [(1, 2)] = run_updates fixed_dir_state [(1, 3)] :=
  ⟨(fixed_direction_determinism fixed_dir_state 90 rfl).2.1 5,
   (fixed_direction_determinism fixed_dir_state 90 rfl).1 [(1, 2)] [(1, 3)] rfl⟩

/-! Reachability helper: in every state reachable from construction, a
controller that is not shaking has a zero `last_vector`. -/

theorem update_not_shaking_lv (s : ShakeState) (dt w : ℝ)
    (h : s.shaking = false → s.last_vector = ⟨0, 0, 0⟩) :
    (update s dt w).1.shaking = false → (update s dt w).1.last_vector = ⟨0, 0, 0⟩ := by
  unfold update
  split
  · exact h
  · rename_i hns
    dsimp only
    split
    · intro hfalse
      exact absurd hfalse hns
    · split
      · intro _
        rfl
      · intro hfalse
        exact absurd hfalse hns

theorem step_not_shaking_lv (s : ShakeState) (op : Op)
    (h : s.shaking = false → s.last_vector = ⟨0, 0, 0⟩) :
    (step s op).shaking = false → (step s op).last_vector = ⟨0, 0, 0⟩ := by
  cases op with
  | start =>
    intro hfalse
    exact absurd hfalse (by simp [step, ScreenShake2D.start, reset])
  | stop => intro _; rfl
  | reset => intro _; rfl
  | update dt w => exact update_not_shaking_lv s dt w h
  | set_duration d =>
    dsimp only [step]
    unfold set_duration
    split
    · exact h
    · split
      · exact h
      · split
        · exact h
        · exact h
  | set_acceleration_duration d =>
    dsimp only [step]
    unfold set_acceleration_duration
    split <;> exact h
  | set_acceleration a =>
    dsimp only [step]
    unfold set_acceleration
    split <;> exact h
  | set_falloff f =>
    dsimp only [step]
    unfold set_falloff
    split <;> exact h
  | set_max_amplitude m => exact h
  | set_shake_frequency f => exact h
  | set_direction_deg dd => exact h

theorem run_not_shaking_lv (ops : List Op) (s : ShakeState)
    (h : s.shaking = false → s.last_vector = ⟨0, 0, 0⟩) :
    (run s ops).shaking = false → (run s ops).last_vector = ⟨0, 0, 0⟩ := by
  induction ops generalizing s with
  | nil => exact h
  | cons op t ih => exact ih (step s op) (step_not_shaking_lv s op h)

/-- Claim C4: the effective (second, overriding) definition of `stop`
subtracts `last_vector` component-wise from the camera position, resets all
transient state to zero, and clears the shaking flag; it equals the shadowed
first definition plus the flag clear; and called in any reachable
non-shaking state it leaves the camera position unchanged, because there
`last_vector` is already the zero vector. -/
theorem stop_effect_and_noop_when_not_shaking (s : ShakeState) :
    (stop s).pos = ⟨s.pos.x - s.last_vector.x, s.pos.y - s.last_vector.y,
                    s.pos.z - s.last_vector.z⟩
    ∧ (stop s).shaking = false
    ∧ (stop s).length_shaking = 0
    ∧ (stop s).last_vector = ⟨0, 0, 0⟩
    ∧ (stop s).current_dir = 0
    ∧ (stop s).last_update_time = 0
    ∧ stop s = { stop_shadowed s with shaking := false }
    ∧ ∀ (p : Vec3) (mA fT aD fq : ℝ) (dd : Option ℝ) (ops : List Op),
        (run (mk_shake p mA fT aD fq dd) ops).shaking = false →
        (stop (run (mk_shake p mA fT aD fq dd) ops)).pos
          = (run (mk_shake p mA fT aD fq dd) ops).pos := by
  refine ⟨rfl, rfl, rfl, rfl, rfl, rfl, rfl, ?_⟩
  intro p mA fT aD fq dd ops hns
  have hlv := run_not_shaking_lv ops (mk_shake p mA fT aD fq dd) (fun _ => rfl) hns
  dsimp only [stop, reset]
  rw [hlv]
  ext <;> simp

/-- Witness for the no-op part of the `stop` contract: on the freshly
constructed (never started) controller, `stop` leaves the position alone. -/
theorem stop_effect_witness :
    (stop (run (mk_shake ⟨1, 2, 3⟩ 1 1 1 15 none) [])).pos
      = (run (mk_shake ⟨1, 2, 3⟩ 1 1 1 15 none) []).pos :=
  (stop_effect_and_noop_when_not_shaking
      (run (mk_shake ⟨1, 2, 3⟩ 1 1 1 15 none) [])).2.2.2.2.2.2.2
    ⟨1, 2, 3⟩ 1 1 1 15 none [] rfl

/-- Claim C9: `start()` and `reset()` never touch the camera position — they
are exactly the transient-state zeroing (plus, for `start`, setting the
shaking flag).  Consequently restarting mid-shake with a nonzero
`last_vector` abandons that offset on the camera: after the restart no
sequence of updates followed by `stop()` can bring the position back to its
pre-shake value `pos - last_vector`. -/
theorem start_reset_frame_effect (s : ShakeState) :
    reset s = { s with current_dir := 0, last_vector := ⟨0, 0, 0⟩,
                       last_update_time := 0, length_shaking := 0 }
    ∧ start s = { s with current_dir := 0, last_vector := ⟨0, 0, 0⟩,
                         last_update_time := 0, length_shaking := 0, shaking := true }
    ∧ ∀ l : List (ℝ × ℝ), s.last_vector ≠ ⟨0, 0, 0⟩ →
        (stop (run_updates (start s) l)).pos ≠ s.pos - s.last_vector := by
  refine ⟨rfl, rfl, ?_⟩
  intro l hlv heq
  have hstop := stop_pos_base s.pos (run_updates (start s) l)
    (run_updates_pos_base s.pos l (start s) (start_pos_base s))
  rw [hstop] at heq
  apply hlv
  have hx := congrArg Vec3.x heq
  have hy := congrArg Vec3.y heq
  have hz := congrArg Vec3.z heq
  simp only [Vec3.sub_x, Vec3.sub_y, Vec3.sub_z] at hx hy hz
  ext
  · simp only []
    linarith
  · simp only []
    linarith
  · simp only []
    linarith

/-- Witness for the mid-shake restart: with `last_vector = (1, 0, 0)` live,
starting again and stopping immediately does not restore the pre-shake
position. -/
theorem start_reset_frame_effect_witness :
    (stop (run_updates (start midshake_state) [])).pos
      ≠ midshake_state.pos - midshake_state.last_vector :=
  (start_reset_frame_effect midshake_state).2.2 []
    (by simp [midshake_state, mk_shake])

/-! Helper lemmas: no operation ever touches the z-component. -/

theorem update_z (c : ℝ) (s : ShakeState) (dt w : ℝ)
    (h : s.last_vector.z = 0 ∧ s.pos.z = c) :
    (update s dt w).1.last_vector.z = 0 ∧ (update s dt w).1.pos.z = c := by
  obtain ⟨h1, h2⟩ := h
  unfold update
  split
  · exact ⟨h1, h2⟩
  · dsimp only
    split
    · exact ⟨h1, h2⟩
    · split
      · refine ⟨rfl, ?_⟩
        dsimp only [stop, reset]
        rw [sub_zero, h1, sub_zero]
        exact h2
      · refine ⟨rfl, ?_⟩
        dsimp only
        rw [h1, sub_zero]
        exact h2

theorem step_z (c : ℝ) (s : ShakeState) (op : Op)
    (h : s.last_vector.z = 0 ∧ s.pos.z = c) :
    (step s op).last_vector.z = 0 ∧ (step s op).pos.z = c := by
  obtain ⟨h1, h2⟩ := h
  cases op with
  | start => exact ⟨rfl, h2⟩
  | stop =>
    refine ⟨rfl, ?_⟩
    dsimp only [step, ScreenShake2D.stop, reset]
    rw [h1, sub_zero]
    exact h2
  | reset => exact ⟨rfl, h2⟩
  | update dt w => exact update_z c s dt w ⟨h1, h2⟩
  | set_duration d =>
    dsimp only [step]
    unfold set_duration
    split
    · exact ⟨h1, h2⟩
    · split
      · exact ⟨h1, h2⟩
      · split
        · exact ⟨h1, h2⟩
        · exact ⟨h1, h2⟩
  | set_acceleration_duration d =>
    dsimp only [step]
    unfold set_acceleration_duration
    split <;> exact ⟨h1, h2⟩
  | set_acceleration a =>
    dsimp only [step]
    unfold set_acceleration
    split <;> exact ⟨h1, h2⟩
  | set_falloff f =>
    dsimp only [step]
    unfold set_falloff
    split <;> exact ⟨h1, h2⟩
  | set_max_amplitude m => exact ⟨h1, h2⟩
  | set_shake_frequency f => exact ⟨h1, h2⟩
  | set_direction_deg dd => exact ⟨h1, h2⟩

theorem run_z (c : ℝ) (ops : List Op) (s : ShakeState)
    (h : s.last_vector.z = 0 ∧ s.pos.z = c) :
    (run s ops).last_vector.z = 0 ∧ (run s ops).pos.z = c := by
  induction ops generalizing s with
  | nil => exact h
  | cons op t ih => exact ih (step s op) (step_z c s op h)

/-- Claim C10: the z-component of the camera position is never changed by
any controller operation: in every state reachable from construction the
z-component of `last_vector` is 0 and the z-component of the position is
its construction-time value. -/
theorem z_component_never_changed (p : Vec3) (mA fT aD fq : ℝ) (dd : Option ℝ)
    (ops : List Op) :
    (run (mk_shake p mA fT aD fq dd) ops).last_vector.z = 0
    ∧ (run (mk_shake p mA fT aD fq dd) ops).pos.z = p.z :=
  run_z p.z ops (mk_shake p mA fT aD fq dd) ⟨rfl, rfl⟩

end
